import Mathlib

/-! # go-openaip: decoding of OpenAIP airspace files

A shallow embedding of `openaip.go`.

* Go `string` is `String` (the XML decoder only hands out valid UTF-8, so a
  text is a sequence of code points).
* `float64` is a type parameter `F`; `strconv.ParseFloat(·, 64)` is a
  parameter `ParseFloat : String → Except X F`, where `X` is the type of the
  error values made by the standard library (`encoding/xml`, `strconv`).
  Where the number returned together with an error is stored (`Alt`), the
  parameter has the shape of the Go function, `String → F × Option X`.
* `strings.Split` and `strings.Fields` are embedded as executable functions.
* A Go function returning `(T, error)` or mutating its receiver and returning
  `error` becomes a function returning a pair whose second component is
  `Option (Err X)`; `none` is the `nil` error.
-/

namespace Openaip

/-! ## Errors -/

/-- An operand of a `fmt.Errorf` call. -/
inductive Arg where
  | int (n : Int)
  | str (s : String)
  | strs (ss : List String)
deriving DecidableEq, Repr

/-- An `error` value: either one made by the standard library and passed
through unchanged, or one made here with `fmt.Errorf(format, args...)`. -/
inductive Err (X : Type) where
  | lib (e : X)
  | errorf (format : String) (args : List Arg)
deriving DecidableEq, Repr

/-- The text `fmt` writes for the verb/operand pairs used in this package:
`%d` with an integer, `%v` with a string, `%#v` with a slice of strings
(`Quote` is `strconv.Quote`). Any other `%` is not rendered (`none`). -/
def sprintf (Quote : String → String) : List Char → List Arg → Option (List Char)
  | [], _ => some []
  | '%' :: 'd' :: fmt, Arg.int n :: args =>
    (sprintf Quote fmt args).map fun r => (toString n).data ++ r
  | '%' :: 'v' :: fmt, Arg.str s :: args =>
    (sprintf Quote fmt args).map fun r => s.data ++ r
  | '%' :: '#' :: 'v' :: fmt, Arg.strs ss :: args =>
    (sprintf Quote fmt args).map fun r =>
      "[]string\x7b".data ++ (", ".intercalate (ss.map Quote)).data ++ "\x7d".data ++ r
  | '%' :: _, _ => none
  | c :: fmt, args => (sprintf Quote fmt args).map fun r => c :: r

/-- The message of an error made with `fmt.Errorf`: `err.Error()`. -/
def Err.message {X : Type} (Quote : String → String) : Err X → Option String
  | Err.lib _ => none
  | Err.errorf format args => (sprintf Quote format.data args).map String.mk

/-! ## Data model -/

/-- An Alt represents an altitude. -/
structure Alt (F : Type) where
  Unit : String
  Value : F
deriving DecidableEq, Repr

/-- An AltLimit represents an altitude limit. -/
structure AltLimit (F : Type) where
  Reference : String
  Value : Alt F
deriving DecidableEq, Repr

/-- A Polygon represents a two-dimensional polygon: `Coords [][]float64`,
longitude then latitude. -/
structure Polygon (F : Type) where
  Coords : List (List F)
deriving DecidableEq, Repr

/-- An Airspace represents a single airspace. -/
structure Airspace (F : Type) where
  Category : String
  Version : String
  ID : Int
  Country : String
  Name : String
  AltLimitTop : AltLimit F
  AltLimitBottom : AltLimit F
  Polygons : List (Polygon F)
deriving DecidableEq, Repr

/-- An OpenAIP represents version information and zero or more Airspaces. -/
structure OpenAIP (F : Type) where
  Version : String
  DataFormat : String
  Airspaces : List (Airspace F)
deriving DecidableEq, Repr

/-- The zero value of `OpenAIP`, as made by `var oa OpenAIP`. -/
def OpenAIP.zero (F : Type) : OpenAIP F :=
  { Version := "", DataFormat := "", Airspaces := [] }

/-- An `xml.Attr`: `Name.Space`, `Name.Local` and `Value`. -/
structure Attr where
  Space : String
  Local : String
  Value : String
deriving DecidableEq, Repr

/-! ## `strings.Split` and `strings.Fields` -/

/-- Pieces of a text between the occurrences of the separator `sep`:
`strings.Split(s, sep)` for a one-character separator, on code points. -/
def splitChars (sep : Char) : List Char → List (List Char)
  | [] => [[]]
  | c :: cs =>
    if c = sep then [] :: splitChars sep cs
    else
      match splitChars sep cs with
      | [] => [[c]]
      | t :: ts => (c :: t) :: ts

/-- `strings.Split(s, sep)` for a one-character separator. -/
def Split (s : String) (sep : Char) : List String :=
  (splitChars sep s.data).map String.mk

/-- `unicode.IsSpace`: the code points with the White_Space property. -/
def isSpace (c : Char) : Bool :=
  let n := c.toNat
  (0x09 ≤ n && n ≤ 0x0D) || n == 0x20 || n == 0x85 || n == 0xA0 || n == 0x1680 ||
  (0x2000 ≤ n && n ≤ 0x200A) || n == 0x2028 || n == 0x2029 || n == 0x202F ||
  n == 0x205F || n == 0x3000

/-- The loop of `strings.Fields`: `cur` holds, reversed, the code points of
the field being read (empty when between fields). -/
def fieldsChars : List Char → List Char → List (List Char)
  | cur, [] => if cur.isEmpty then [] else [cur.reverse]
  | cur, c :: cs =>
    if isSpace c then
      if cur.isEmpty then fieldsChars [] cs else cur.reverse :: fieldsChars [] cs
    else fieldsChars (c :: cur) cs

/-- `strings.Fields(s)`: the maximal runs of non-space code points. -/
def Fields (s : String) : List String :=
  (fieldsChars [] s.data).map String.mk

/-! ## The decoders -/

/-- `(a *Alt) UnmarshalXML(d, start)`. `attrs` is `start.Attr`;
`DecodeElement` is the outcome of `d.DecodeElement(&value, &start)`, the
text content of the element or the decoder's error. `ParseFloat value` is
the pair `strconv.ParseFloat(value, 64)` returns; the statement
`a.Value, err = strconv.ParseFloat(value, 64)` stores its number whether or
not the error is nil. Returns the receiver after the call and the error. -/
def Alt.UnmarshalXML {F X : Type} (ParseFloat : String → F × Option X)
    (a : Alt F) (attrs : List Attr) (DecodeElement : Except X String) :
    Alt F × Option (Err X) :=
  let a := attrs.foldl
    (fun a attr => if attr.Local = "UNIT" then { a with Unit := attr.Value } else a) a
  match DecodeElement with
  | Except.error err => (a, some (Err.lib err))
  | Except.ok value =>
    match ParseFloat value with
    | (v, some err) => ({ a with Value := v }, some (Err.lib err))
    | (v, none) => ({ a with Value := v }, none)

/-- Modelled from the spec: the AltitudeLimit record decoder of section 4.3,
which the source leaves to `encoding/xml` and the field tags of `AltLimit`
(`REFERENCE,attr` and `ALT`). Attribute extraction: `Reference` takes the
value of the attribute named REFERENCE, found in `attrs`, the attributes of
the element. Delegation: the nested ALT element, given by its attributes
`altAttrs` and the outcome `altElement` of reading its text, is decoded by
`Alt.UnmarshalXML` into the field `Value`; its error is returned as it is.
Returns the AltLimit after the call and the error. -/
def AltLimit.decode {F X : Type} (ParseFloat : String → F × Option X)
    (l : AltLimit F) (attrs altAttrs : List Attr) (altElement : Except X String) :
    AltLimit F × Option (Err X) :=
  let l := attrs.foldl
    (fun l attr => if attr.Local = "REFERENCE" then { l with Reference := attr.Value } else l) l
  match Alt.UnmarshalXML ParseFloat l.Value altAttrs altElement with
  | (a, err) => ({ l with Value := a }, err)

/-- The body of the loop `for i, cs := range css` of `Polygon.UnmarshalXML`,
run over the tokens from left to right: the slice `coords` on success, the
error of the first `return` reached otherwise. -/
def parseCoords {F X : Type} (ParseFloat : String → Except X F) :
    List String → Except (Err X) (List (List F))
  | [] => Except.ok []
  | cs :: css =>
    match Fields cs with
    | [f0, f1] =>
      match ParseFloat f0 with
      | Except.error err => Except.error (Err.lib err)
      | Except.ok lon =>
        match ParseFloat f1 with
        | Except.error err => Except.error (Err.lib err)
        | Except.ok lat =>
          match parseCoords ParseFloat css with
          | Except.error err => Except.error err
          | Except.ok coords => Except.ok ([lon, lat] :: coords)
    | fields =>
      Except.error
        (Err.errorf "expected two values, got %d: %v" [Arg.int fields.length, Arg.str cs])

/-- `(p *Polygon) UnmarshalXML(d, start)`. `DecodeElement` is the outcome of
`d.DecodeElement(&value, &start)`. Returns the receiver after the call and
the error. -/
def Polygon.UnmarshalXML {F X : Type} (ParseFloat : String → Except X F)
    (p : Polygon F) (DecodeElement : Except X String) : Polygon F × Option (Err X) :=
  match DecodeElement with
  | Except.error err => (p, some (Err.lib err))
  | Except.ok value =>
    let css := Split value ','
    if css.length < 3 then
      (p, some (Err.errorf "expected at least 3 coordinates, got %d: %#v"
        [Arg.int css.length, Arg.strs css]))
    else
      match parseCoords ParseFloat css with
      | Except.error err => (p, some err)
      | Except.ok coords => ({ Coords := p.Coords ++ coords }, none)

/-- `Read(r)`. `Decode r oa` is `xml.NewDecoder(r).Decode(&oa)`: the value of
`oa` after the call and the error. The result is the pair `(*OpenAIP, error)`,
`none` standing for `nil`. -/
def Read {F X R : Type} (Decode : R → OpenAIP F → OpenAIP F × Option (Err X)) (r : R) :
    Option (OpenAIP F) × Option (Err X) :=
  match Decode r (OpenAIP.zero F) with
  | (_, some err) => (none, some err)
  | (oa, none) =>
    if oa.DataFormat ≠ "1.1" then
      (none, some (Err.errorf "unsupported data format: %v" [Arg.str oa.DataFormat]))
    else (some oa, none)

/-! ## A sample number parser

`strconv.ParseFloat` restricted to plain decimal literals (an optional sign,
digits, at most one point, at least one digit), with the exact decimal value
of the literal as the number. On such a literal whose value is a binary64
number, and on a text that is not a number at all, it answers as
`strconv.ParseFloat` does; it is used at such inputs only, to evaluate the
decoders on concrete texts. -/

/-- A `*strconv.NumError`: the function, the input and the reason. -/
structure NumError where
  Func : String
  Num : String
  Err : String
deriving DecidableEq, Repr

/-- The number `mant / 10 ^ scale`. -/
structure Decimal where
  mant : Int
  scale : Nat
deriving DecidableEq, Repr

/-- The decimal with no trailing zero after the point: one value, one form. -/
def Decimal.normalize : Int → Nat → Decimal
  | m, 0 => { mant := m, scale := 0 }
  | m, k + 1 =>
    if m % 10 = 0 then Decimal.normalize (m / 10) k else { mant := m, scale := k + 1 }

/-- Reads the digits and the point of a decimal literal: the digits read so
far as a number, the count of digits after the point (if one was read), and
whether a digit was seen. -/
def scanDecimal : List Char → Nat → Option Nat → Bool → Option (Nat × Nat)
  | [], m, frac, seen => if seen then some (m, frac.getD 0) else none
  | c :: cs, m, frac, seen =>
    if c.isDigit then
      scanDecimal cs (10 * m + (c.toNat - 48)) (frac.map (· + 1)) true
    else if c = '.' then
      match frac with
      | some _ => none
      | none => scanDecimal cs m (some 0) seen
    else none

/-- The digits and point of a literal, after its sign. -/
def sampleParseUnsigned (s : String) (neg : Bool) (cs : List Char) : Except NumError Decimal :=
  match scanDecimal cs 0 none false with
  | none => Except.error { Func := "ParseFloat", Num := s, Err := "invalid syntax" }
  | some (m, k) => Except.ok (Decimal.normalize (if neg then -(m : Int) else (m : Int)) k)

/-- The sample number parser. -/
def sampleParseFloat (s : String) : Except NumError Decimal :=
  match s.data with
  | '-' :: cs => sampleParseUnsigned s true cs
  | '+' :: cs => sampleParseUnsigned s false cs
  | cs => sampleParseUnsigned s false cs

/-- The sample number parser in the shape of the Go function: with an error
about the syntax comes the number 0. -/
def sampleParseFloatPair (s : String) : Decimal × Option NumError :=
  match sampleParseFloat s with
  | Except.ok v => (v, none)
  | Except.error err => ({ mant := 0, scale := 0 }, some err)

/-- A sample structural decoder: its input is the outcome of the structural
decode itself, the document as filled in and the error. -/
def sampleDecode (r : OpenAIP Decimal × Option (Err NumError)) (_ : OpenAIP Decimal) :
    OpenAIP Decimal × Option (Err NumError) := r

/-- A document with one airspace and no polygon, with the given data format. -/
def sampleDocument (dataFormat : String) : OpenAIP Decimal :=
  { Version := "367810a0"
    DataFormat := dataFormat
    Airspaces := [
      { Category := "WAVE"
        Version := "367810a0"
        ID := 18024
        Country := "DE"
        Name := "ALB-OST"
        AltLimitTop := ⟨"STD", ⟨"FL", ⟨100, 0⟩⟩⟩
        AltLimitBottom := ⟨"STD", ⟨"FL", ⟨75, 0⟩⟩⟩
        Polygons := [] }] }

/-! ## Specification vocabulary -/

/-- Token `cs` splits into exactly two fields, the first parses as `c[0]` and
the second as `c[1]`. -/
def TokenCoord {F X : Type} (ParseFloat : String → Except X F) (cs : String) (c : List F) :
    Prop :=
  ∃ f0 f1 lon lat, Fields cs = [f0, f1] ∧ ParseFloat f0 = Except.ok lon ∧
    ParseFloat f1 = Except.ok lat ∧ c = [lon, lat]

/-- The Polygons that decoding produces: the empty Polygon, and the Polygon a
decode that returns no error leaves when it is started on such a Polygon. -/
inductive Polygon.Decoded {F X : Type} (ParseFloat : String → Except X F) : Polygon F → Prop where
  | empty : Polygon.Decoded ParseFloat { Coords := [] }
  | decode (p p2 : Polygon F) (de : Except X String) :
      Polygon.Decoded ParseFloat p →
      Polygon.UnmarshalXML ParseFloat p de = (p2, none) →
      Polygon.Decoded ParseFloat p2

/-- The value of the attribute with the local name `name`: of the last one,
if several attributes have that local name; `none` if there is none. -/
def attrValue (name : String) (attrs : List Attr) : Option String :=
  (attrs.reverse.find? fun attr => attr.Local = name).map fun attr => attr.Value

/-- A non-empty text with no comma and no white space. -/
def plainLiteral (s : String) : Bool :=
  !s.data.isEmpty && s.data.all fun c => c != ',' && !isSpace c

/-- A text with no comma and no white space. -/
def noCommaNoSpace (s : String) : Bool :=
  s.data.all fun c => c != ',' && !isSpace c

/-- The text `a_1 b_1, a_2 b_2, ..., a_n b_n`: each pair written with one
space between its two literals, the pairs joined by a comma and a space. -/
def renderPairs (pairs : List (String × String)) : String :=
  ", ".intercalate (pairs.map fun ab => ab.1 ++ " " ++ ab.2)

/-! ## Messages -/

theorem message_unsupported {X : Type} (Quote : String → String) (v : String) :
    (Err.errorf "unsupported data format: %v" [Arg.str v] : Err X).message Quote =
      some ("unsupported data format: " ++ v) := by
  simp only [Err.message, sprintf, Option.map_some']
  congr 1
  apply String.ext
  simp [String.data_append]

theorem message_two_values {X : Type} (Quote : String → String) (n : Int) (cs : String) :
    (Err.errorf "expected two values, got %d: %v" [Arg.int n, Arg.str cs] : Err X).message Quote =
      some ("expected two values, got " ++ toString n ++ ": " ++ cs) := by
  simp only [Err.message, sprintf, Option.map_some']
  congr 1
  apply String.ext
  simp [String.data_append]

theorem message_at_least_3 {X : Type} (Quote : String → String) (n : Int) (css : List String) :
    (Err.errorf "expected at least 3 coordinates, got %d: %#v" [Arg.int n, Arg.strs css] :
        Err X).message Quote =
      some ("expected at least 3 coordinates, got " ++ toString n ++ ": []string\x7b" ++
        ", ".intercalate (css.map Quote) ++ "\x7d") := by
  simp only [Err.message, sprintf, Option.map_some']
  congr 1
  apply String.ext
  simp [String.data_append]

/-! ## Splitting into tokens and fields -/

theorem splitChars_ne_nil (sep : Char) (cs : List Char) : splitChars sep cs ≠ [] := by
  cases cs with
  | nil => simp [splitChars]
  | cons c cs =>
    unfold splitChars
    split
    · simp
    · split <;> simp

theorem splitChars_length (sep : Char) (cs : List Char) :
    (splitChars sep cs).length = cs.count sep + 1 := by
  induction cs with
  | nil => simp [splitChars]
  | cons c cs ih =>
    unfold splitChars
    by_cases h : c = sep
    · subst h
      simp [ih]
    · have hne := splitChars_ne_nil sep cs
      rw [if_neg h]
      rcases hs : splitChars sep cs with _ | ⟨t, ts⟩
      · exact absurd hs hne
      · rw [hs] at ih
        simp only [List.length_cons] at ih ⊢
        rw [List.count_cons_of_ne (Ne.symm h)]
        exact ih

theorem Split_length (s : String) (sep : Char) :
    (Split s sep).length = s.data.count sep + 1 := by
  simp [Split, splitChars_length]

theorem splitChars_of_not_mem (sep : Char) (t : List Char) (ht : sep ∉ t) :
    splitChars sep t = [t] := by
  induction t with
  | nil => simp [splitChars]
  | cons c cs ih =>
    have hc : c ≠ sep := fun h => ht (by simp [h])
    have hcs : sep ∉ cs := fun h => ht (by simp [h])
    unfold splitChars
    rw [if_neg hc, ih hcs]

theorem splitChars_append_sep (sep : Char) (t rest : List Char) (ht : sep ∉ t) :
    splitChars sep (t ++ sep :: rest) = t :: splitChars sep rest := by
  induction t with
  | nil => simp [splitChars]
  | cons c cs ih =>
    have hc : c ≠ sep := fun h => ht (by simp [h])
    have hcs : sep ∉ cs := fun h => ht (by simp [h])
    rw [List.cons_append, splitChars, if_neg hc, ih hcs]

theorem fieldsChars_append_word (w cur rest : List Char) (hw : ∀ c ∈ w, isSpace c = false) :
    fieldsChars cur (w ++ rest) = fieldsChars (w.reverse ++ cur) rest := by
  induction w generalizing cur with
  | nil => simp
  | cons c cs ih =>
    have hc : isSpace c = false := hw c (by simp)
    have hcs : ∀ d ∈ cs, isSpace d = false := fun d hd => hw d (by simp [hd])
    rw [List.cons_append, fieldsChars]
    simp only [hc, Bool.false_eq_true, if_false]
    rw [ih (c :: cur) hcs]
    simp

theorem fieldsChars_two_words (a b : List Char) (ha : a ≠ []) (hb : b ≠ [])
    (hsa : ∀ c ∈ a, isSpace c = false) (hsb : ∀ c ∈ b, isSpace c = false) :
    fieldsChars [] (a ++ ' ' :: b) = [a, b] := by
  rw [fieldsChars_append_word a [] _ hsa]
  have hsp : isSpace ' ' = true := by decide
  unfold fieldsChars
  simp only [hsp, if_true, List.append_nil, List.isEmpty_eq_true, List.reverse_eq_nil_iff, ha,
    if_false, List.reverse_reverse]
  have hb0 := fieldsChars_append_word b [] [] hsb
  rw [List.append_nil] at hb0
  rw [hb0]
  simp [fieldsChars, hb]

theorem fieldsChars_space_two_words (a b : List Char) (ha : a ≠ []) (hb : b ≠ [])
    (hsa : ∀ c ∈ a, isSpace c = false) (hsb : ∀ c ∈ b, isSpace c = false) :
    fieldsChars [] (' ' :: (a ++ ' ' :: b)) = [a, b] := by
  have hsp : isSpace ' ' = true := by decide
  rw [fieldsChars]
  simp only [hsp, if_true, List.isEmpty_nil]
  exact fieldsChars_two_words a b ha hb hsa hsb

/-! ## The coordinate loop -/

theorem parseCoords_cons_count {F X : Type} (ParseFloat : String → Except X F) (cs : String)
    (css : List String) (hf : (Fields cs).length ≠ 2) :
    parseCoords ParseFloat (cs :: css) =
      Except.error (Err.errorf "expected two values, got %d: %v"
        [Arg.int (Fields cs).length, Arg.str cs]) := by
  rw [parseCoords]
  rcases hF : Fields cs with _ | ⟨a, _ | ⟨b, _ | ⟨c, r⟩⟩⟩
  · rfl
  · rfl
  · rw [hF] at hf
    exact absurd rfl hf
  · rfl

theorem parseCoords_cons_lon {F X : Type} (ParseFloat : String → Except X F) (cs : String)
    (css : List String) (f0 f1 : String) (e : X) (hf : Fields cs = [f0, f1])
    (h0 : ParseFloat f0 = Except.error e) :
    parseCoords ParseFloat (cs :: css) = Except.error (Err.lib e) := by
  rw [parseCoords, hf]
  simp only [h0]

theorem parseCoords_cons_lat {F X : Type} (ParseFloat : String → Except X F) (cs : String)
    (css : List String) (f0 f1 : String) (lon : F) (e : X) (hf : Fields cs = [f0, f1])
    (h0 : ParseFloat f0 = Except.ok lon) (h1 : ParseFloat f1 = Except.error e) :
    parseCoords ParseFloat (cs :: css) = Except.error (Err.lib e) := by
  rw [parseCoords, hf]
  simp only [h0, h1]

theorem parseCoords_cons_coord {F X : Type} (ParseFloat : String → Except X F) (cs : String)
    (css : List String) (c : List F) (h : TokenCoord ParseFloat cs c) :
    parseCoords ParseFloat (cs :: css) =
      match parseCoords ParseFloat css with
      | Except.error err => Except.error err
      | Except.ok coords => Except.ok (c :: coords) := by
  obtain ⟨f0, f1, lon, lat, hf, h0, h1, rfl⟩ := h
  rw [parseCoords, hf]
  simp only [h0, h1]

theorem parseCoords_ok_iff {F X : Type} (ParseFloat : String → Except X F) (css : List String)
    (coords : List (List F)) :
    parseCoords ParseFloat css = Except.ok coords ↔
      List.Forall₂ (TokenCoord ParseFloat) css coords := by
  induction css generalizing coords with
  | nil =>
    rw [parseCoords, List.forall₂_nil_left_iff]
    constructor
    · intro h
      cases h
      rfl
    · intro h
      rw [h]
  | cons cs css ih =>
    by_cases hlen : (Fields cs).length = 2
    · rcases hF : Fields cs with _ | ⟨f0, _ | ⟨f1, _ | ⟨f2, r⟩⟩⟩
      · rw [hF] at hlen; cases hlen
      · rw [hF] at hlen; cases hlen
      · cases h0 : ParseFloat f0 with
        | error e =>
          rw [parseCoords_cons_lon ParseFloat cs css f0 f1 e hF h0]
          constructor
          · intro h; cases h
          · intro h
            cases h with
            | cons hc _ =>
              obtain ⟨g0, g1, lon, lat, hg, hg0, _, _⟩ := hc
              rw [hF] at hg
              cases hg
              rw [h0] at hg0
              cases hg0
        | ok lon =>
          cases h1 : ParseFloat f1 with
          | error e =>
            rw [parseCoords_cons_lat ParseFloat cs css f0 f1 lon e hF h0 h1]
            constructor
            · intro h; cases h
            · intro h
              cases h with
              | cons hc _ =>
                obtain ⟨g0, g1, lon2, lat, hg, _, hg1, _⟩ := hc
                rw [hF] at hg
                cases hg
                rw [h1] at hg1
                cases hg1
          | ok lat =>
            have hc : TokenCoord ParseFloat cs [lon, lat] := ⟨f0, f1, lon, lat, hF, h0, h1, rfl⟩
            rw [parseCoords_cons_coord ParseFloat cs css [lon, lat] hc]
            constructor
            · intro h
              cases hr : parseCoords ParseFloat css with
              | error err => rw [hr] at h; cases h
              | ok rest =>
                rw [hr] at h
                cases h
                exact List.Forall₂.cons hc ((ih rest).mp hr)
            · intro h
              cases h with
              | cons hc2 hrest =>
                obtain ⟨g0, g1, lon2, lat2, hg, hg0, hg1, rfl⟩ := hc2
                rw [hF] at hg
                cases hg
                rw [h0] at hg0
                rw [h1] at hg1
                cases hg0
                cases hg1
                rw [(ih _).mpr hrest]
      · rw [hF] at hlen; simp at hlen
    · rw [parseCoords_cons_count ParseFloat cs css hlen]
      constructor
      · intro h; cases h
      · intro h
        cases h with
        | cons hc _ =>
          obtain ⟨g0, g1, _, _, hg, _, _, _⟩ := hc
          rw [hg] at hlen
          exact absurd rfl hlen

theorem parseCoords_error_shape {F X : Type} (ParseFloat : String → Except X F)
    (css : List String) (err : Err X) (h : parseCoords ParseFloat css = Except.error err) :
    (∃ e, err = Err.lib e) ∨
      ∃ n cs, err = Err.errorf "expected two values, got %d: %v" [Arg.int n, Arg.str cs] := by
  induction css with
  | nil => rw [parseCoords] at h; cases h
  | cons cs css ih =>
    by_cases hlen : (Fields cs).length = 2
    · rcases hF : Fields cs with _ | ⟨f0, _ | ⟨f1, _ | ⟨f2, r⟩⟩⟩
      · rw [hF] at hlen; cases hlen
      · rw [hF] at hlen; cases hlen
      · cases h0 : ParseFloat f0 with
        | error e =>
          rw [parseCoords_cons_lon ParseFloat cs css f0 f1 e hF h0] at h
          cases h
          exact Or.inl ⟨e, rfl⟩
        | ok lon =>
          cases h1 : ParseFloat f1 with
          | error e =>
            rw [parseCoords_cons_lat ParseFloat cs css f0 f1 lon e hF h0 h1] at h
            cases h
            exact Or.inl ⟨e, rfl⟩
          | ok lat =>
            have hc : TokenCoord ParseFloat cs [lon, lat] := ⟨f0, f1, lon, lat, hF, h0, h1, rfl⟩
            rw [parseCoords_cons_coord ParseFloat cs css [lon, lat] hc] at h
            cases hr : parseCoords ParseFloat css with
            | error err2 =>
              rw [hr] at h
              cases h
              exact ih hr
            | ok rest => rw [hr] at h; cases h
      · rw [hF] at hlen; simp at hlen
    · rw [parseCoords_cons_count ParseFloat cs css hlen] at h
      cases h
      exact Or.inr ⟨_, _, rfl⟩

theorem parseCoords_append {F X : Type} (ParseFloat : String → Except X F)
    (pre post : List String) (cpre : List (List F))
    (hpre : List.Forall₂ (TokenCoord ParseFloat) pre cpre) :
    parseCoords ParseFloat (pre ++ post) =
      match parseCoords ParseFloat post with
      | Except.error err => Except.error err
      | Except.ok coords => Except.ok (cpre ++ coords) := by
  induction hpre with
  | nil =>
    simp only [List.nil_append]
    cases parseCoords ParseFloat post <;> rfl
  | cons hc _ ih =>
    rw [List.cons_append, parseCoords_cons_coord ParseFloat _ _ _ hc, ih]
    cases parseCoords ParseFloat post <;> rfl

/-- The outcome of `Polygon.UnmarshalXML` on a text, in terms of the loop. -/
theorem Polygon_UnmarshalXML_text {F X : Type} (ParseFloat : String → Except X F)
    (p : Polygon F) (value : String) :
    Polygon.UnmarshalXML ParseFloat p (Except.ok value) =
      if (Split value ',').length < 3 then
        (p, some (Err.errorf "expected at least 3 coordinates, got %d: %#v"
          [Arg.int (Split value ',').length, Arg.strs (Split value ',')]))
      else
        match parseCoords ParseFloat (Split value ',') with
        | Except.error err => (p, some err)
        | Except.ok coords => ({ Coords := p.Coords ++ coords }, none) := rfl

theorem Polygon_UnmarshalXML_ok {F X : Type} (ParseFloat : String → Except X F)
    (p p2 : Polygon F) (de : Except X String)
    (h : Polygon.UnmarshalXML ParseFloat p de = (p2, none)) :
    ∃ value coords, de = Except.ok value ∧ 3 ≤ (Split value ',').length ∧
      parseCoords ParseFloat (Split value ',') = Except.ok coords ∧
      p2 = { Coords := p.Coords ++ coords } := by
  cases de with
  | error e => simp [Polygon.UnmarshalXML] at h
  | ok value =>
    rw [Polygon_UnmarshalXML_text] at h
    by_cases hlen : (Split value ',').length < 3
    · rw [if_pos hlen] at h
      simp at h
    · rw [if_neg hlen] at h
      cases hr : parseCoords ParseFloat (Split value ',') with
      | error err => rw [hr] at h; simp at h
      | ok coords =>
        rw [hr] at h
        simp only [Prod.mk.injEq, and_true] at h
        exact ⟨value, coords, rfl, by omega, hr, h.symm⟩

theorem exists_coords_of_forall {F X : Type} (ParseFloat : String → Except X F)
    (pre : List String) (h : ∀ t ∈ pre, ∃ c, TokenCoord ParseFloat t c) :
    ∃ cpre, List.Forall₂ (TokenCoord ParseFloat) pre cpre := by
  induction pre with
  | nil => exact ⟨[], List.Forall₂.nil⟩
  | cons t ts ih =>
    obtain ⟨c, hc⟩ := h t (by simp)
    obtain ⟨cs, hcs⟩ := ih (fun u hu => h u (by simp [hu]))
    exact ⟨c :: cs, List.Forall₂.cons hc hcs⟩

theorem parseCoords_error_of_bad_token {F X : Type} (ParseFloat : String → Except X F)
    (css : List String) (cs : String) (hmem : cs ∈ css)
    (hbad : ∀ c, ¬ TokenCoord ParseFloat cs c) :
    ∃ err, parseCoords ParseFloat css = Except.error err := by
  cases hr : parseCoords ParseFloat css with
  | error err => exact ⟨err, rfl⟩
  | ok coords =>
    exfalso
    have hall := (parseCoords_ok_iff ParseFloat _ _).mp hr
    obtain ⟨i, hi, rfl⟩ := List.getElem_of_mem hmem
    have hc := hall.get hi (hall.length_eq ▸ hi)
    rw [List.get_eq_getElem] at hc
    exact hbad _ hc

theorem Polygon_UnmarshalXML_error {F X : Type} (ParseFloat : String → Except X F)
    (p : Polygon F) (value : String) (err : Err X) (hn : 3 ≤ (Split value ',').length)
    (hr : parseCoords ParseFloat (Split value ',') = Except.error err) :
    Polygon.UnmarshalXML ParseFloat p (Except.ok value) = (p, some err) := by
  rw [Polygon_UnmarshalXML_text, if_neg (by omega), hr]

theorem parseCoords_first_bad {F X : Type} (ParseFloat : String → Except X F)
    (pre post : List String) (cs : String) (err : Err X)
    (hpre : ∀ t ∈ pre, ∃ c, TokenCoord ParseFloat t c)
    (hcs : parseCoords ParseFloat (cs :: post) = Except.error err) :
    parseCoords ParseFloat (pre ++ cs :: post) = Except.error err := by
  obtain ⟨cpre, hcpre⟩ := exists_coords_of_forall ParseFloat pre hpre
  rw [parseCoords_append ParseFloat pre (cs :: post) cpre hcpre, hcs]

/-! ## Rendered coordinate lists -/

theorem intercalate_go_data (s acc : String) (l : List String) :
    (String.intercalate.go acc s l).data =
      acc.data ++ (l.map fun t => s.data ++ t.data).flatten := by
  induction l generalizing acc with
  | nil => simp [String.intercalate.go]
  | cons t ts ih => simp [String.intercalate.go, ih, String.data_append]

theorem splitChars_joined (t : List Char) (ts : List (List Char)) (ht : ',' ∉ t)
    (hts : ∀ u ∈ ts, ',' ∉ u) :
    splitChars ',' (t ++ (ts.map fun u => ',' :: ' ' :: u).flatten) =
      t :: ts.map fun u => ' ' :: u := by
  induction ts generalizing t with
  | nil => simpa using splitChars_of_not_mem ',' t ht
  | cons u us ih =>
    have hu : ',' ∉ ' ' :: u := by
      intro h
      rcases List.mem_cons.mp h with h | h
      · exact absurd h (by decide)
      · exact hts u (by simp) h
    have hus : ∀ v ∈ us, ',' ∉ v := fun v hv => hts v (by simp [hv])
    have hshape : t ++ ((u :: us).map fun u => ',' :: ' ' :: u).flatten =
        t ++ ',' :: ((' ' :: u) ++ (us.map fun u => ',' :: ' ' :: u).flatten) := by
      simp
    rw [hshape, splitChars_append_sep ',' t _ ht, ih (' ' :: u) hu hus]
    simp

theorem Split_intercalate (t : String) (ts : List String) (ht : ',' ∉ t.data)
    (hts : ∀ u ∈ ts, ',' ∉ u.data) :
    Split (", ".intercalate (t :: ts)) ',' = t :: ts.map fun u => " " ++ u := by
  have hdata : (", ".intercalate (t :: ts)).data =
      t.data ++ ((ts.map String.data).map fun u => ',' :: ' ' :: u).flatten := by
    rw [String.intercalate, intercalate_go_data, List.map_map]
    rfl
  rw [Split, hdata, splitChars_joined t.data (ts.map String.data) ht]
  · simp only [List.map_cons, List.map_map]
    congr 1
  · intro u hu
    obtain ⟨v, hv, rfl⟩ := List.mem_map.mp hu
    exact hts v hv

theorem plainLiteral_spec (s : String) (h : plainLiteral s = true) :
    s.data ≠ [] ∧ ',' ∉ s.data ∧ ∀ c ∈ s.data, isSpace c = false := by
  simp only [plainLiteral, Bool.and_eq_true, Bool.not_eq_true', List.isEmpty_eq_false,
    List.all_eq_true, bne_iff_ne, ne_eq] at h
  refine ⟨h.1, fun hc => (h.2 ',' hc).1 rfl, fun c hc => (h.2 c hc).2⟩

theorem plainLiteral_of_parsed {F X : Type} (ParseFloat : String → Except X F)
    (hempty : ∀ x, ParseFloat "" ≠ Except.ok x) (s : String) (x : F)
    (hs : noCommaNoSpace s = true) (hx : ParseFloat s = Except.ok x) :
    plainLiteral s = true := by
  have hne : s.data ≠ [] := by
    intro h
    have hs0 : s = "" := String.ext h
    rw [hs0] at hx
    exact hempty x hx
  simp only [plainLiteral, Bool.and_eq_true, Bool.not_eq_true', List.isEmpty_eq_false]
  exact ⟨hne, hs⟩

theorem Fields_pair (a b : String) (ha : plainLiteral a = true) (hb : plainLiteral b = true) :
    Fields (a ++ " " ++ b) = [a, b] ∧ Fields (" " ++ (a ++ " " ++ b)) = [a, b] := by
  obtain ⟨ha0, _, has⟩ := plainLiteral_spec a ha
  obtain ⟨hb0, _, hbs⟩ := plainLiteral_spec b hb
  have h1 : (a ++ " " ++ b).data = a.data ++ ' ' :: b.data := by
    simp [String.data_append]
  have h2 : (" " ++ (a ++ " " ++ b)).data = ' ' :: (a.data ++ ' ' :: b.data) := by
    simp [String.data_append]
  constructor
  · rw [Fields, h1, fieldsChars_two_words a.data b.data ha0 hb0 has hbs]
    rfl
  · rw [Fields, h2, fieldsChars_space_two_words a.data b.data ha0 hb0 has hbs]
    rfl

theorem pair_no_comma (a b : String) (ha : plainLiteral a = true) (hb : plainLiteral b = true) :
    ',' ∉ (a ++ " " ++ b).data := by
  obtain ⟨_, hac, _⟩ := plainLiteral_spec a ha
  obtain ⟨_, hbc, _⟩ := plainLiteral_spec b hb
  simp only [String.data_append, List.mem_append, not_or]
  exact ⟨⟨hac, by decide⟩, hbc⟩

theorem forall₂_rendered_tokens {F X : Type} (ParseFloat : String → Except X F)
    (g : String → String) (pairs : List (String × String)) (xs : List (F × F))
    (hg : ∀ ab ∈ pairs, Fields (g (ab.1 ++ " " ++ ab.2)) = [ab.1, ab.2])
    (hparse : List.Forall₂
      (fun ab xy => ParseFloat ab.1 = Except.ok xy.1 ∧ ParseFloat ab.2 = Except.ok xy.2)
      pairs xs) :
    List.Forall₂ (TokenCoord ParseFloat) (pairs.map fun ab => g (ab.1 ++ " " ++ ab.2))
      (xs.map fun xy => [xy.1, xy.2]) := by
  induction hparse with
  | nil => exact List.Forall₂.nil
  | @cons ab xy abs xys hab _ ih =>
    refine List.Forall₂.cons ?_ (ih fun cd hcd => hg cd (by simp [hcd]))
    exact ⟨ab.1, ab.2, xy.1, xy.2, hg ab (by simp), hab.1, hab.2, rfl⟩

/-! ## Read -/

/-- C1: Read returns a document exactly when the structural decode succeeds
and the decoded DATAFORMAT is the string "1.1"; the document returned is the
decoded one, unaltered, with a nil error; the values "", "1.0", "1.10" and
" 1.1" are rejected. -/
theorem Read_document_iff {F X R : Type} (Decode : R → OpenAIP F → OpenAIP F × Option (Err X))
    (r : R) :
    ((∃ oa, (Read Decode r).1 = some oa) ↔
      ((Decode r (OpenAIP.zero F)).2 = none ∧
        (Decode r (OpenAIP.zero F)).1.DataFormat = "1.1")) ∧
    (∀ oa, (Read Decode r).1 = some oa →
      Read Decode r = (some (Decode r (OpenAIP.zero F)).1, none)) ∧
    (∀ v ∈ ["", "1.0", "1.10", " 1.1"],
      (Decode r (OpenAIP.zero F)).1.DataFormat = v → (Read Decode r).1 = none) := by
  unfold Read
  rcases h : Decode r (OpenAIP.zero F) with ⟨oa, _ | err⟩
  · by_cases hd : oa.DataFormat = "1.1"
    · simp [hd]
    · refine ⟨?_, ?_, ?_⟩
      · simp [hd]
      · simp [hd]
      · intro v _ _
        simp [hd]
  · simp

/-- C2: when the structural decode succeeds with a DATAFORMAT v other than
"1.1", Read returns no document and the error made with the format
"unsupported data format: %v" and v, whose message is "unsupported data
format: " followed by v, whatever the rest of the decoded document is. -/
theorem Read_unsupported_data_format {F X R : Type}
    (Decode : R → OpenAIP F → OpenAIP F × Option (Err X)) (Quote : String → String) (r : R)
    (oa : OpenAIP F) (hdec : Decode r (OpenAIP.zero F) = (oa, none))
    (hv : oa.DataFormat ≠ "1.1") :
    Read Decode r =
        (none, some (Err.errorf "unsupported data format: %v" [Arg.str oa.DataFormat])) ∧
      ∀ err, (Read Decode r).2 = some err →
        err.message Quote = some ("unsupported data format: " ++ oa.DataFormat) := by
  have h : Read Decode r =
      (none, some (Err.errorf "unsupported data format: %v" [Arg.str oa.DataFormat])) := by
    simp [Read, hdec, hv]
  refine ⟨h, fun err herr => ?_⟩
  rw [h] at herr
  cases herr
  exact message_unsupported Quote oa.DataFormat

theorem Read_unsupported_data_format_witness :
    sampleDecode (sampleDocument "1.0", none) (OpenAIP.zero Decimal) =
        (sampleDocument "1.0", none) ∧
      (sampleDocument "1.0").DataFormat ≠ "1.1" ∧
      (Read sampleDecode (sampleDocument "1.0", none) =
          (none, some (Err.errorf "unsupported data format: %v"
            [Arg.str (sampleDocument "1.0").DataFormat])) ∧
        ∀ err, (Read sampleDecode (sampleDocument "1.0", none)).2 = some err →
          err.message id = some ("unsupported data format: " ++ (sampleDocument "1.0").DataFormat)) :=
  ⟨rfl, by decide,
    Read_unsupported_data_format sampleDecode id (sampleDocument "1.0", none)
      (sampleDocument "1.0") rfl (by decide)⟩

/-- C3: Read returns either a document with a nil error or no document with
an error, never both and never neither. -/
theorem Read_atomic {F X R : Type} (Decode : R → OpenAIP F → OpenAIP F × Option (Err X))
    (r : R) :
    ((∃ oa, Read Decode r = (some oa, none)) ∨ (∃ err, Read Decode r = (none, some err))) ∧
      ¬ ((Read Decode r).1.isSome ∧ (Read Decode r).2.isSome) ∧
      ¬ ((Read Decode r).1 = none ∧ (Read Decode r).2 = none) := by
  unfold Read
  rcases h : Decode r (OpenAIP.zero F) with ⟨oa, _ | err⟩
  · by_cases hd : oa.DataFormat = "1.1" <;> simp [hd]
  · simp

/-- C4: when the structural decode fails with error e, Read returns no
document and exactly e, whatever DATAFORMAT the partly decoded document
holds. -/
theorem Read_decode_error_verbatim {F X R : Type}
    (Decode : R → OpenAIP F → OpenAIP F × Option (Err X)) (r : R) (oa : OpenAIP F)
    (e : Err X) (hdec : Decode r (OpenAIP.zero F) = (oa, some e)) :
    Read Decode r = (none, some e) := by
  simp [Read, hdec]

theorem Read_decode_error_verbatim_witness :
    sampleDecode (sampleDocument "1.0", some (Err.lib ⟨"Decode", "<", "unexpected EOF"⟩))
        (OpenAIP.zero Decimal) =
        (sampleDocument "1.0", some (Err.lib ⟨"Decode", "<", "unexpected EOF"⟩)) ∧
      (sampleDocument "1.0").DataFormat ≠ "1.1" ∧
      Read sampleDecode (sampleDocument "1.0", some (Err.lib ⟨"Decode", "<", "unexpected EOF"⟩)) =
        (none, some (Err.lib ⟨"Decode", "<", "unexpected EOF"⟩)) :=
  ⟨rfl, by decide,
    Read_decode_error_verbatim sampleDecode
      (sampleDocument "1.0", some (Err.lib ⟨"Decode", "<", "unexpected EOF"⟩))
      (sampleDocument "1.0") (Err.lib ⟨"Decode", "<", "unexpected EOF"⟩) rfl⟩

/-! ## Polygon.UnmarshalXML -/

/-- C5: when a polygon text decodes successfully into an empty Polygon, the
result has one coordinate per comma-separated token, in token order, and the
coordinate at index i is the parse of the first field of token i followed by
the parse of its second field, the token having exactly these two fields. -/
theorem Polygon_coords_follow_tokens {F X : Type} (ParseFloat : String → Except X F)
    (value : String) (p2 : Polygon F)
    (h : Polygon.UnmarshalXML ParseFloat { Coords := [] } (Except.ok value) = (p2, none)) :
    p2.Coords.length = (Split value ',').length ∧
      ∀ (i : Nat) (cs : String), (Split value ',')[i]? = some cs →
        ∃ f0 f1 lon lat, Fields cs = [f0, f1] ∧ ParseFloat f0 = Except.ok lon ∧
          ParseFloat f1 = Except.ok lat ∧ p2.Coords[i]? = some [lon, lat] := by
  obtain ⟨v, coords, hv, _, hpc, rfl⟩ := Polygon_UnmarshalXML_ok ParseFloat _ _ _ h
  cases hv
  have hall := (parseCoords_ok_iff ParseFloat _ _).mp hpc
  have hlen := hall.length_eq
  simp only [List.nil_append]
  refine ⟨hlen.symm, fun i cs hi => ?_⟩
  obtain ⟨hi1, hget⟩ := List.getElem?_eq_some.mp hi
  have hi2 : i < coords.length := hlen ▸ hi1
  obtain ⟨f0, f1, lon, lat, hf, h0, h1, hc⟩ := hall.get hi1 hi2
  rw [List.get_eq_getElem] at hf hc
  rw [hget] at hf
  refine ⟨f0, f1, lon, lat, hf, h0, h1, ?_⟩
  rw [List.getElem?_eq_getElem hi2, ← hc]

theorem Polygon_coords_follow_tokens_witness :
    Polygon.UnmarshalXML sampleParseFloat { Coords := [] }
        (Except.ok "1.0 2.0, 3.0 4.0, 5.0 6.0") =
        ({ Coords := [[⟨1, 0⟩, ⟨2, 0⟩], [⟨3, 0⟩, ⟨4, 0⟩], [⟨5, 0⟩, ⟨6, 0⟩]] }, none) ∧
      ([[⟨1, 0⟩, ⟨2, 0⟩], [⟨3, 0⟩, ⟨4, 0⟩], [⟨5, 0⟩, ⟨6, 0⟩]] : List (List Decimal)).length =
        (Split "1.0 2.0, 3.0 4.0, 5.0 6.0" ',').length ∧
      ∀ (i : Nat) (cs : String), (Split "1.0 2.0, 3.0 4.0, 5.0 6.0" ',')[i]? = some cs →
        ∃ f0 f1 lon lat, Fields cs = [f0, f1] ∧ sampleParseFloat f0 = Except.ok lon ∧
          sampleParseFloat f1 = Except.ok lat ∧
          ([[⟨1, 0⟩, ⟨2, 0⟩], [⟨3, 0⟩, ⟨4, 0⟩], [⟨5, 0⟩, ⟨6, 0⟩]] : List (List Decimal))[i]? =
            some [lon, lat] :=
  ⟨by decide,
    Polygon_coords_follow_tokens sampleParseFloat "1.0 2.0, 3.0 4.0, 5.0 6.0"
      { Coords := [[⟨1, 0⟩, ⟨2, 0⟩], [⟨3, 0⟩, ⟨4, 0⟩], [⟨5, 0⟩, ⟨6, 0⟩]] } (by decide)⟩

/-- C6: for n >= 3 pairs of literals without comma or white space that parse
to the numbers (x_i, y_i), the text "a_1 b_1, ..., a_n b_n" decodes into an
empty Polygon, without error, as exactly [(x_1, y_1), ..., (x_n, y_n)]. The
number parser is one that, as `strconv.ParseFloat` does, rejects the empty
text. -/
theorem Polygon_decode_rendered {F X : Type} (ParseFloat : String → Except X F)
    (hempty : ∀ x, ParseFloat "" ≠ Except.ok x)
    (pairs : List (String × String)) (xs : List (F × F)) (hn : 3 ≤ pairs.length)
    (hclean : ∀ ab ∈ pairs, noCommaNoSpace ab.1 = true ∧ noCommaNoSpace ab.2 = true)
    (hparse : List.Forall₂
      (fun ab xy => ParseFloat ab.1 = Except.ok xy.1 ∧ ParseFloat ab.2 = Except.ok xy.2)
      pairs xs) :
    Polygon.UnmarshalXML ParseFloat { Coords := [] } (Except.ok (renderPairs pairs)) =
      ({ Coords := xs.map fun xy => [xy.1, xy.2] }, none) := by
  have hplain : ∀ ab ∈ pairs, plainLiteral ab.1 = true ∧ plainLiteral ab.2 = true := by
    intro ab hab
    obtain ⟨i, hi, rfl⟩ := List.getElem_of_mem hab
    have hp := hparse.get hi (hparse.length_eq ▸ hi)
    rw [List.get_eq_getElem] at hp
    exact ⟨plainLiteral_of_parsed ParseFloat hempty _ _ (hclean _ hab).1 hp.1,
      plainLiteral_of_parsed ParseFloat hempty _ _ (hclean _ hab).2 hp.2⟩
  cases hparse with
  | nil => simp at hn
  | @cons ab xy rest xrest hab hrest =>
    have hsplit : Split (renderPairs (ab :: rest)) ',' =
        (ab.1 ++ " " ++ ab.2) ::
          rest.map fun cd => (fun u => " " ++ u) (cd.1 ++ " " ++ cd.2) := by
      rw [renderPairs, List.map_cons, Split_intercalate, List.map_map]
      · rfl
      · exact pair_no_comma ab.1 ab.2 (hplain ab (by simp)).1 (hplain ab (by simp)).2
      · intro u hu
        obtain ⟨cd, hcd, rfl⟩ := List.mem_map.mp hu
        exact pair_no_comma cd.1 cd.2 (hplain cd (by simp [hcd])).1 (hplain cd (by simp [hcd])).2
    have hhead : TokenCoord ParseFloat (ab.1 ++ " " ++ ab.2) [xy.1, xy.2] :=
      ⟨ab.1, ab.2, xy.1, xy.2,
        (Fields_pair ab.1 ab.2 (hplain ab (by simp)).1 (hplain ab (by simp)).2).1,
        hab.1, hab.2, rfl⟩
    have htail := forall₂_rendered_tokens ParseFloat (fun u => " " ++ u) rest xrest
      (fun cd hcd =>
        (Fields_pair cd.1 cd.2 (hplain cd (by simp [hcd])).1 (hplain cd (by simp [hcd])).2).2)
      hrest
    have hpc : parseCoords ParseFloat (Split (renderPairs (ab :: rest)) ',') =
        Except.ok ((xy :: xrest).map fun xy => [xy.1, xy.2]) := by
      rw [hsplit]
      exact (parseCoords_ok_iff ParseFloat _ _).mpr (List.Forall₂.cons hhead htail)
    have hlen : ¬ (Split (renderPairs (ab :: rest)) ',').length < 3 := by
      rw [hsplit]
      simp only [List.length_cons, List.length_map] at hn ⊢
      omega
    rw [Polygon_UnmarshalXML_text, if_neg hlen, hpc]
    rfl

theorem Polygon_decode_rendered_witness :
    (∀ x, sampleParseFloat "" ≠ Except.ok x) ∧
      3 ≤ [("1.0", "2.0"), ("3.0", "4.0"), ("-5.5", "6.25")].length ∧
      (∀ ab ∈ [("1.0", "2.0"), ("3.0", "4.0"), ("-5.5", "6.25")],
        noCommaNoSpace ab.1 = true ∧ noCommaNoSpace ab.2 = true) ∧
      renderPairs [("1.0", "2.0"), ("3.0", "4.0"), ("-5.5", "6.25")] =
        "1.0 2.0, 3.0 4.0, -5.5 6.25" ∧
      Polygon.UnmarshalXML sampleParseFloat { Coords := [] }
          (Except.ok (renderPairs [("1.0", "2.0"), ("3.0", "4.0"), ("-5.5", "6.25")])) =
        ({ Coords := ([(⟨1, 0⟩, ⟨2, 0⟩), (⟨3, 0⟩, ⟨4, 0⟩), (⟨-55, 1⟩, ⟨625, 2⟩)] :
            List (Decimal × Decimal)).map fun xy => [xy.1, xy.2] }, none) :=
  ⟨fun _ h => Except.noConfusion h, by decide, by decide, by decide,
    Polygon_decode_rendered sampleParseFloat (fun _ h => Except.noConfusion h)
      [("1.0", "2.0"), ("3.0", "4.0"), ("-5.5", "6.25")]
      [(⟨1, 0⟩, ⟨2, 0⟩), (⟨3, 0⟩, ⟨4, 0⟩), (⟨-55, 1⟩, ⟨625, 2⟩)] (by decide) (by decide)
      (List.Forall₂.cons ⟨rfl, rfl⟩
        (List.Forall₂.cons ⟨rfl, rfl⟩ (List.Forall₂.cons ⟨rfl, rfl⟩ List.Forall₂.nil)))⟩

/-- C7: with n the number of commas of the text plus one, which is the number
of tokens, decoding fails with the error made with the format "expected at
least 3 coordinates, got %d: %#v" exactly when n < 3; that error carries n
and the tokens, its message reads "expected at least 3 coordinates, got n:
..." and the Polygon is left as it was. -/
theorem Polygon_too_few_tokens_iff {F X : Type} (ParseFloat : String → Except X F)
    (Quote : String → String) (p : Polygon F) (value : String) :
    (Split value ',').length = value.data.count ',' + 1 ∧
      ((∃ args, (Polygon.UnmarshalXML ParseFloat p (Except.ok value)).2 =
          some (Err.errorf "expected at least 3 coordinates, got %d: %#v" args)) ↔
        value.data.count ',' + 1 < 3) ∧
      (value.data.count ',' + 1 < 3 →
        Polygon.UnmarshalXML ParseFloat p (Except.ok value) =
          (p, some (Err.errorf "expected at least 3 coordinates, got %d: %#v"
            [Arg.int ((value.data.count ',' + 1 : Nat) : Int), Arg.strs (Split value ',')])) ∧
        (Err.errorf "expected at least 3 coordinates, got %d: %#v"
            [Arg.int ((value.data.count ',' + 1 : Nat) : Int), Arg.strs (Split value ',')] :
          Err X).message Quote =
          some ("expected at least 3 coordinates, got " ++
            toString ((value.data.count ',' + 1 : Nat) : Int) ++ ": []string\x7b" ++
            ", ".intercalate ((Split value ',').map Quote) ++ "\x7d")) := by
  have hlen := Split_length value ','
  have hlt : value.data.count ',' + 1 < 3 →
      Polygon.UnmarshalXML ParseFloat p (Except.ok value) =
        (p, some (Err.errorf "expected at least 3 coordinates, got %d: %#v"
          [Arg.int ((value.data.count ',' + 1 : Nat) : Int), Arg.strs (Split value ',')])) := by
    intro hn
    rw [Polygon_UnmarshalXML_text, if_pos (by omega), hlen]
  refine ⟨hlen, ⟨?_, ?_⟩, fun hn => ⟨hlt hn, message_at_least_3 Quote _ _⟩⟩
  · rintro ⟨args, hargs⟩
    by_contra hn
    rw [Polygon_UnmarshalXML_text, if_neg (by omega)] at hargs
    cases hr : parseCoords ParseFloat (Split value ',') with
    | error err =>
      rw [hr] at hargs
      simp only [Option.some.injEq] at hargs
      rcases parseCoords_error_shape ParseFloat _ _ hr with ⟨e, he⟩ | ⟨n, cs, he⟩
      · rw [he] at hargs
        cases hargs
      · rw [he] at hargs
        have hfmt := (Err.errorf.inj hargs).1
        revert hfmt
        decide
    | ok coords =>
      rw [hr] at hargs
      cases hargs
  · intro hn
    rw [hlt hn]
    exact ⟨_, rfl⟩

/-- One successful decode keeps the shape of the coordinates already held and
appends at least 3 coordinates of that shape. -/
theorem Polygon_decode_keeps_shape {F X : Type} (ParseFloat : String → Except X F)
    (p p2 : Polygon F) (de : Except X String)
    (hp : ∀ c ∈ p.Coords, c.length = 2)
    (h : Polygon.UnmarshalXML ParseFloat p de = (p2, none)) :
    3 ≤ p2.Coords.length ∧ ∀ c ∈ p2.Coords, c.length = 2 := by
  obtain ⟨value, coords, _, hn, hpc, rfl⟩ := Polygon_UnmarshalXML_ok ParseFloat _ _ _ h
  have hall := (parseCoords_ok_iff ParseFloat _ _).mp hpc
  have hlen := hall.length_eq
  refine ⟨?_, fun c hc => ?_⟩
  · simp only [List.length_append]
    omega
  · rcases List.mem_append.mp hc with hc | hc
    · exact hp c hc
    · obtain ⟨i, hi, rfl⟩ := List.getElem_of_mem hc
      obtain ⟨_, _, lon, lat, _, _, _, hcoord⟩ := hall.get (hlen ▸ hi) hi
      rw [List.get_eq_getElem] at hcoord
      rw [hcoord]
      rfl

/-- Every coordinate of a Polygon produced by decoding holds exactly 2
numbers. -/
theorem Polygon_Decoded_shape {F X : Type} (ParseFloat : String → Except X F)
    (p : Polygon F) (hp : Polygon.Decoded ParseFloat p) : ∀ c ∈ p.Coords, c.length = 2 := by
  induction hp with
  | empty =>
    intro c hc
    cases hc
  | decode q q2 de _ hdec ih =>
    exact (Polygon_decode_keeps_shape ParseFloat q q2 de ih hdec).2

/-- C10: after every successful polygon decode, into the empty Polygon or
into a Polygon already populated by earlier decodes, the Polygon holds at
least 3 coordinates and every coordinate is a sequence of exactly 2 numbers. -/
theorem Polygon_invariant {F X : Type} (ParseFloat : String → Except X F)
    (p p2 : Polygon F) (de : Except X String)
    (hp : Polygon.Decoded ParseFloat p)
    (h : Polygon.UnmarshalXML ParseFloat p de = (p2, none)) :
    3 ≤ p2.Coords.length ∧ ∀ c ∈ p2.Coords, c.length = 2 :=
  Polygon_decode_keeps_shape ParseFloat p p2 de (Polygon_Decoded_shape ParseFloat p hp) h

theorem Polygon_invariant_witness :
    Polygon.Decoded sampleParseFloat
        { Coords := [[⟨7, 0⟩, ⟨8, 0⟩], [⟨9, 0⟩, ⟨0, 0⟩], [⟨7, 0⟩, ⟨8, 0⟩]] } ∧
      Polygon.UnmarshalXML sampleParseFloat
          { Coords := [[⟨7, 0⟩, ⟨8, 0⟩], [⟨9, 0⟩, ⟨0, 0⟩], [⟨7, 0⟩, ⟨8, 0⟩]] }
          (Except.ok "1 2, 3 4, 5 6") =
        ({ Coords := [[⟨7, 0⟩, ⟨8, 0⟩], [⟨9, 0⟩, ⟨0, 0⟩], [⟨7, 0⟩, ⟨8, 0⟩],
            [⟨1, 0⟩, ⟨2, 0⟩], [⟨3, 0⟩, ⟨4, 0⟩], [⟨5, 0⟩, ⟨6, 0⟩]] }, none) ∧
      (3 ≤ ({ Coords := [[⟨7, 0⟩, ⟨8, 0⟩], [⟨9, 0⟩, ⟨0, 0⟩], [⟨7, 0⟩, ⟨8, 0⟩],
          [⟨1, 0⟩, ⟨2, 0⟩], [⟨3, 0⟩, ⟨4, 0⟩], [⟨5, 0⟩, ⟨6, 0⟩]] } :
            Polygon Decimal).Coords.length ∧
        ∀ c ∈ ({ Coords := [[⟨7, 0⟩, ⟨8, 0⟩], [⟨9, 0⟩, ⟨0, 0⟩], [⟨7, 0⟩, ⟨8, 0⟩],
          [⟨1, 0⟩, ⟨2, 0⟩], [⟨3, 0⟩, ⟨4, 0⟩], [⟨5, 0⟩, ⟨6, 0⟩]] } :
            Polygon Decimal).Coords, c.length = 2) :=
  ⟨Polygon.Decoded.decode { Coords := [] } _ (Except.ok "7 8, 9 0, 7 8")
      Polygon.Decoded.empty (by decide),
    by decide,
    Polygon_invariant sampleParseFloat
      { Coords := [[⟨7, 0⟩, ⟨8, 0⟩], [⟨9, 0⟩, ⟨0, 0⟩], [⟨7, 0⟩, ⟨8, 0⟩]] } _
      (Except.ok "1 2, 3 4, 5 6")
      (Polygon.Decoded.decode { Coords := [] } _ (Except.ok "7 8, 9 0, 7 8")
        Polygon.Decoded.empty (by decide))
      (by decide)⟩

/-- C8 (amended): when the text has at least 3 tokens and a token does not
split into exactly 2 fields, decoding fails and leaves the Polygon as it was;
if every token before it has exactly 2 fields that both parse as numbers, the
error is the one made with the format "expected two values, got %d: %v", the
field count of that token and the token itself, and its message reads
"expected two values, got " count ": " token. -/
theorem Polygon_field_count_error {F X : Type} (ParseFloat : String → Except X F)
    (Quote : String → String) (p : Polygon F) (value : String) (pre post : List String)
    (cs : String) (hn : 3 ≤ (Split value ',').length)
    (hsplit : Split value ',' = pre ++ cs :: post) (hcs : (Fields cs).length ≠ 2) :
    (∃ err, Polygon.UnmarshalXML ParseFloat p (Except.ok value) = (p, some err)) ∧
      ((∀ t ∈ pre, ∃ c, TokenCoord ParseFloat t c) →
        Polygon.UnmarshalXML ParseFloat p (Except.ok value) =
          (p, some (Err.errorf "expected two values, got %d: %v"
            [Arg.int (Fields cs).length, Arg.str cs])) ∧
        (Err.errorf "expected two values, got %d: %v"
            [Arg.int (Fields cs).length, Arg.str cs] : Err X).message Quote =
          some ("expected two values, got " ++ toString ((Fields cs).length : Int) ++ ": " ++
            cs)) := by
  constructor
  · have hbad : ∀ c, ¬ TokenCoord ParseFloat cs c := by
      rintro c ⟨f0, f1, _, _, hf, _⟩
      rw [hf] at hcs
      exact hcs rfl
    obtain ⟨err, herr⟩ := parseCoords_error_of_bad_token ParseFloat (Split value ',') cs
      (by rw [hsplit]; simp) hbad
    exact ⟨err, Polygon_UnmarshalXML_error ParseFloat p value err hn herr⟩
  · intro hpre
    refine ⟨?_, message_two_values Quote _ _⟩
    apply Polygon_UnmarshalXML_error ParseFloat p value _ hn
    rw [hsplit]
    exact parseCoords_first_bad ParseFloat pre post cs _ hpre
      (parseCoords_cons_count ParseFloat cs post hcs)

theorem Polygon_field_count_error_witness :
    3 ≤ (Split "1 2, 3 4 5, 6 7," ',').length ∧
      Split "1 2, 3 4 5, 6 7," ',' = ["1 2"] ++ " 3 4 5" :: [" 6 7", ""] ∧
      (Fields " 3 4 5").length ≠ 2 ∧
      ((∃ err, Polygon.UnmarshalXML sampleParseFloat { Coords := [] }
          (Except.ok "1 2, 3 4 5, 6 7,") = ({ Coords := [] }, some err)) ∧
        ((∀ t ∈ ["1 2"], ∃ c, TokenCoord sampleParseFloat t c) →
          Polygon.UnmarshalXML sampleParseFloat { Coords := [] }
              (Except.ok "1 2, 3 4 5, 6 7,") =
            ({ Coords := [] }, some (Err.errorf "expected two values, got %d: %v"
              [Arg.int (Fields " 3 4 5").length, Arg.str " 3 4 5"])) ∧
          (Err.errorf "expected two values, got %d: %v"
              [Arg.int (Fields " 3 4 5").length, Arg.str " 3 4 5"] : Err NumError).message id =
            some ("expected two values, got " ++ toString ((Fields " 3 4 5").length : Int) ++
              ": " ++ " 3 4 5"))) :=
  ⟨by decide, by decide, by decide,
    Polygon_field_count_error sampleParseFloat id { Coords := [] } "1 2, 3 4 5, 6 7,"
      ["1 2"] [" 6 7", ""] " 3 4 5" (by decide) (by decide) (by decide)⟩

/-- C8, as stated, fails: in "x y, 1 2 3, 4 5" the token " 1 2 3" has 3
fields, yet the error returned is the number parser's error for the field
"x" of the token before it, not the error naming " 1 2 3" and the count 3. -/
theorem Polygon_field_count_error_counterexample :
    3 ≤ (Split "x y, 1 2 3, 4 5" ',').length ∧
      (Split "x y, 1 2 3, 4 5" ',')[1]? = some " 1 2 3" ∧
      (Fields " 1 2 3").length = 3 ∧
      Polygon.UnmarshalXML sampleParseFloat { Coords := [] } (Except.ok "x y, 1 2 3, 4 5") =
        ({ Coords := [] }, some (Err.lib ⟨"ParseFloat", "x", "invalid syntax"⟩)) ∧
      (Polygon.UnmarshalXML sampleParseFloat { Coords := [] }
          (Except.ok "x y, 1 2 3, 4 5")).2 ≠
        some (Err.errorf "expected two values, got %d: %v" [Arg.int 3, Arg.str " 1 2 3"]) := by
  decide

/-- C9 (amended): when the text has at least 3 tokens and a token has exactly
2 fields of which one is not a number, decoding fails and leaves the Polygon
as it was; if every token before it has exactly 2 fields that both parse as
numbers, the error is the number parser's own error, unchanged, for the first
of the two fields that does not parse (longitude before latitude). -/
theorem Polygon_number_error {F X : Type} (ParseFloat : String → Except X F)
    (p : Polygon F) (value : String) (pre post : List String) (cs f0 f1 : String)
    (hn : 3 ≤ (Split value ',').length) (hsplit : Split value ',' = pre ++ cs :: post)
    (hf : Fields cs = [f0, f1])
    (hbad : (∃ e, ParseFloat f0 = Except.error e) ∨ (∃ e, ParseFloat f1 = Except.error e)) :
    (∃ err, Polygon.UnmarshalXML ParseFloat p (Except.ok value) = (p, some err)) ∧
      ((∀ t ∈ pre, ∃ c, TokenCoord ParseFloat t c) →
        ∃ e, Polygon.UnmarshalXML ParseFloat p (Except.ok value) = (p, some (Err.lib e)) ∧
          (ParseFloat f0 = Except.error e ∨
            ((∃ lon, ParseFloat f0 = Except.ok lon) ∧ ParseFloat f1 = Except.error e))) := by
  have hlib : ∃ e, parseCoords ParseFloat (cs :: post) = Except.error (Err.lib e) ∧
      (ParseFloat f0 = Except.error e ∨
        ((∃ lon, ParseFloat f0 = Except.ok lon) ∧ ParseFloat f1 = Except.error e)) := by
    cases h0 : ParseFloat f0 with
    | error e =>
      exact ⟨e, parseCoords_cons_lon ParseFloat cs post f0 f1 e hf h0, Or.inl rfl⟩
    | ok lon =>
      rcases hbad with ⟨e, he⟩ | ⟨e, he⟩
      · rw [h0] at he
        cases he
      · exact ⟨e, parseCoords_cons_lat ParseFloat cs post f0 f1 lon e hf h0 he,
          Or.inr ⟨⟨lon, rfl⟩, he⟩⟩
  constructor
  · have hnot : ∀ c, ¬ TokenCoord ParseFloat cs c := by
      rintro c ⟨g0, g1, lon, lat, hg, hg0, hg1, _⟩
      rw [hf] at hg
      cases hg
      rcases hbad with ⟨e, he⟩ | ⟨e, he⟩
      · rw [hg0] at he
        cases he
      · rw [hg1] at he
        cases he
    obtain ⟨err, herr⟩ := parseCoords_error_of_bad_token ParseFloat (Split value ',') cs
      (by rw [hsplit]; simp) hnot
    exact ⟨err, Polygon_UnmarshalXML_error ParseFloat p value err hn herr⟩
  · intro hpre
    obtain ⟨e, he, hwhich⟩ := hlib
    refine ⟨e, ?_, hwhich⟩
    apply Polygon_UnmarshalXML_error ParseFloat p value _ hn
    rw [hsplit]
    exact parseCoords_first_bad ParseFloat pre post cs _ hpre he

theorem Polygon_number_error_witness :
    3 ≤ (Split "1 2, 3 y, 5 6" ',').length ∧
      Split "1 2, 3 y, 5 6" ',' = ["1 2"] ++ " 3 y" :: [" 5 6"] ∧
      Fields " 3 y" = ["3", "y"] ∧
      ((∃ err, Polygon.UnmarshalXML sampleParseFloat { Coords := [] }
          (Except.ok "1 2, 3 y, 5 6") = ({ Coords := [] }, some err)) ∧
        ((∀ t ∈ ["1 2"], ∃ c, TokenCoord sampleParseFloat t c) →
          ∃ e, Polygon.UnmarshalXML sampleParseFloat { Coords := [] }
              (Except.ok "1 2, 3 y, 5 6") = ({ Coords := [] }, some (Err.lib e)) ∧
            (sampleParseFloat "3" = Except.error e ∨
              ((∃ lon, sampleParseFloat "3" = Except.ok lon) ∧
                sampleParseFloat "y" = Except.error e)))) :=
  ⟨by decide, by decide, by decide,
    Polygon_number_error sampleParseFloat { Coords := [] } "1 2, 3 y, 5 6" ["1 2"] [" 5 6"]
      " 3 y" "3" "y" (by decide) (by decide) (by decide)
      (Or.inr ⟨⟨"ParseFloat", "y", "invalid syntax"⟩, rfl⟩)⟩

/-- C9, as stated, fails: in "x y, 1 2, 3 4" the token "x y" has exactly 2
fields and "x" is not a number; the error returned is the number parser's
own error about the field "x", not an error made here that carries the token
"x y" and the field count 2. -/
theorem Polygon_number_error_counterexample :
    3 ≤ (Split "x y, 1 2, 3 4" ',').length ∧
      (Split "x y, 1 2, 3 4" ',')[0]? = some "x y" ∧
      Fields "x y" = ["x", "y"] ∧
      Polygon.UnmarshalXML sampleParseFloat { Coords := [] } (Except.ok "x y, 1 2, 3 4") =
        ({ Coords := [] }, some (Err.lib ⟨"ParseFloat", "x", "invalid syntax"⟩)) ∧
      ¬ ∃ format args,
        (Polygon.UnmarshalXML sampleParseFloat { Coords := [] }
          (Except.ok "x y, 1 2, 3 4")).2 = some (Err.errorf format args) ∧
        Arg.str "x y" ∈ args ∧ Arg.int 2 ∈ args := by
  refine ⟨by decide, by decide, by decide, by decide, ?_⟩
  rintro ⟨format, args, h, _⟩
  have h2 : (Polygon.UnmarshalXML sampleParseFloat { Coords := [] }
      (Except.ok "x y, 1 2, 3 4")).2 =
      some (Err.lib ⟨"ParseFloat", "x", "invalid syntax"⟩) := by decide
  rw [h2] at h
  cases h

/-! ## Alt.UnmarshalXML -/

theorem attrValue_append_singleton (name : String) (attrs : List Attr) (x : Attr) :
    attrValue name (attrs ++ [x]) =
      if x.Local = name then some x.Value else attrValue name attrs := by
  simp only [attrValue, List.reverse_append, List.reverse_singleton, List.singleton_append,
    List.find?_cons]
  by_cases h : x.Local = name
  · simp [h]
  · simp [h]

theorem attrValue_eq_none (name : String) (attrs : List Attr)
    (h : ∀ attr ∈ attrs, attr.Local ≠ name) : attrValue name attrs = none := by
  simp only [attrValue, Option.map_eq_none', List.find?_eq_none, List.mem_reverse,
    decide_eq_true_eq]
  exact h

theorem Alt_unit_foldl {F : Type} (a : Alt F) (attrs : List Attr) :
    attrs.foldl
        (fun a attr => if attr.Local = "UNIT" then { a with Unit := attr.Value } else a) a =
      { Unit := (attrValue "UNIT" attrs).getD a.Unit, Value := a.Value } := by
  induction attrs using List.reverseRecOn with
  | nil => rfl
  | append_singleton l x ih =>
    rw [List.foldl_append, ih, attrValue_append_singleton]
    by_cases h : x.Local = "UNIT"
    · simp [h]
    · simp [h]

theorem AltLimit_reference_foldl {F : Type} (l : AltLimit F) (attrs : List Attr) :
    attrs.foldl
        (fun l attr => if attr.Local = "REFERENCE" then { l with Reference := attr.Value }
          else l) l =
      { Reference := (attrValue "REFERENCE" attrs).getD l.Reference, Value := l.Value } := by
  induction attrs using List.reverseRecOn with
  | nil => rfl
  | append_singleton k x ih =>
    rw [List.foldl_append, ih, attrValue_append_singleton]
    by_cases h : x.Local = "REFERENCE"
    · simp [h]
    · simp [h]

/-- The outcome of `Alt.UnmarshalXML` on an element whose text was read. -/
theorem Alt_UnmarshalXML_text {F X : Type} (ParseFloat : String → F × Option X)
    (a : Alt F) (attrs : List Attr) (t : String) :
    Alt.UnmarshalXML ParseFloat a attrs (Except.ok t) =
      ({ Unit := (attrValue "UNIT" attrs).getD a.Unit, Value := (ParseFloat t).1 },
        (ParseFloat t).2.map Err.lib) := by
  simp only [Alt.UnmarshalXML, Alt_unit_foldl]
  rcases h : ParseFloat t with ⟨v, _ | err⟩ <;> rfl

/-- C12: when the text t of an altitude element parses as the number v,
decoding into an empty Alt succeeds with Value = v and Unit = the value of
the UNIT attribute (of the last one, if there are several); with no UNIT
attribute it succeeds all the same and Unit is the empty string. -/
theorem Alt_decode_value_and_unit {F X : Type} (ParseFloat : String → F × Option X)
    (z v : F) (attrs : List Attr) (t : String) (hv : ParseFloat t = (v, none)) :
    (Alt.UnmarshalXML ParseFloat { Unit := "", Value := z } attrs (Except.ok t)).2 = none ∧
      (Alt.UnmarshalXML ParseFloat { Unit := "", Value := z } attrs (Except.ok t)).1.Value = v ∧
      (∀ u, attrValue "UNIT" attrs = some u →
        Alt.UnmarshalXML ParseFloat { Unit := "", Value := z } attrs (Except.ok t) =
          ({ Unit := u, Value := v }, none)) ∧
      ((∀ attr ∈ attrs, attr.Local ≠ "UNIT") →
        Alt.UnmarshalXML ParseFloat { Unit := "", Value := z } attrs (Except.ok t) =
          ({ Unit := "", Value := v }, none)) := by
  rw [Alt_UnmarshalXML_text, hv]
  refine ⟨rfl, rfl, fun u hu => ?_, fun hno => ?_⟩
  · rw [hu]
    rfl
  · rw [attrValue_eq_none "UNIT" attrs hno]
    rfl

theorem Alt_decode_value_and_unit_witness :
    sampleParseFloatPair "100" = (⟨100, 0⟩, none) ∧
      attrValue "UNIT" [⟨"", "UNIT", "FL"⟩] = some "FL" ∧
      Alt.UnmarshalXML sampleParseFloatPair { Unit := "", Value := ⟨0, 0⟩ }
          [⟨"", "UNIT", "FL"⟩] (Except.ok "100") =
        ({ Unit := "FL", Value := ⟨100, 0⟩ }, none) :=
  ⟨by decide, by decide,
    (Alt_decode_value_and_unit sampleParseFloatPair ⟨0, 0⟩ ⟨100, 0⟩ [⟨"", "UNIT", "FL"⟩] "100"
      (by decide)).2.2.1 "FL" (by decide)⟩

/-- C13: once the text t of an altitude element has been read, the error of
the decode is the error the number parser gives for t, unchanged, and nil
when the parser gives none: the decode fails exactly when t does not parse,
whatever the attributes of the element are. -/
theorem Alt_fails_iff_not_number {F X : Type} (ParseFloat : String → F × Option X)
    (a : Alt F) (attrs : List Attr) (t : String) :
    (Alt.UnmarshalXML ParseFloat a attrs (Except.ok t)).2 = (ParseFloat t).2.map Err.lib ∧
      ((Alt.UnmarshalXML ParseFloat a attrs (Except.ok t)).2 ≠ none ↔
        (ParseFloat t).2 ≠ none) ∧
      (∀ err, (Alt.UnmarshalXML ParseFloat a attrs (Except.ok t)).2 = some err ↔
        ∃ e, (ParseFloat t).2 = some e ∧ err = Err.lib e) ∧
      ∀ attrs2 : List Attr, (Alt.UnmarshalXML ParseFloat a attrs2 (Except.ok t)).2 =
        (Alt.UnmarshalXML ParseFloat a attrs (Except.ok t)).2 := by
  have h : ∀ attrs1 : List Attr, (Alt.UnmarshalXML ParseFloat a attrs1 (Except.ok t)).2 =
      (ParseFloat t).2.map Err.lib := fun attrs1 => by rw [Alt_UnmarshalXML_text]
  refine ⟨h attrs, ?_, ?_, fun attrs2 => by rw [h attrs2, h attrs]⟩
  · rw [h attrs]
    cases (ParseFloat t).2 <;> simp
  · intro err
    rw [h attrs]
    cases (ParseFloat t).2 with
    | none => simp
    | some e =>
      simp only [Option.map_some', Option.some.injEq, exists_eq_left']
      exact eq_comm

/-- C19: when the element has a UNIT attribute with value u (the last one, if
several) and its text does not parse as a number, the decode fails with the
parser's error and the target's Unit is u all the same (its Value is the
number the parser returned with the error); a target whose Unit was not u is
not left as it was. -/
theorem Alt_unit_written_on_failure {F X : Type} (ParseFloat : String → F × Option X)
    (a : Alt F) (attrs : List Attr) (t u : String) (v : F) (e : X)
    (hu : attrValue "UNIT" attrs = some u) (he : ParseFloat t = (v, some e)) :
    Alt.UnmarshalXML ParseFloat a attrs (Except.ok t) =
        ({ Unit := u, Value := v }, some (Err.lib e)) ∧
      (Alt.UnmarshalXML ParseFloat a attrs (Except.ok t)).1.Unit = u ∧
      (a.Unit ≠ u → (Alt.UnmarshalXML ParseFloat a attrs (Except.ok t)).1 ≠ a) := by
  rw [Alt_UnmarshalXML_text, hu, he]
  refine ⟨rfl, rfl, fun hne h => hne ?_⟩
  rw [← h]
  rfl

theorem Alt_unit_written_on_failure_witness :
    attrValue "UNIT" [⟨"", "UNIT", "FL"⟩, ⟨"ns", "UNIT", "M"⟩] = some "M" ∧
      sampleParseFloatPair "high" = (⟨0, 0⟩, some ⟨"ParseFloat", "high", "invalid syntax"⟩) ∧
      (Alt.UnmarshalXML sampleParseFloatPair { Unit := "", Value := ⟨0, 0⟩ }
            [⟨"", "UNIT", "FL"⟩, ⟨"ns", "UNIT", "M"⟩] (Except.ok "high") =
          ({ Unit := "M", Value := ⟨0, 0⟩ },
            some (Err.lib ⟨"ParseFloat", "high", "invalid syntax"⟩)) ∧
        (Alt.UnmarshalXML sampleParseFloatPair { Unit := "", Value := ⟨0, 0⟩ }
            [⟨"", "UNIT", "FL"⟩, ⟨"ns", "UNIT", "M"⟩] (Except.ok "high")).1.Unit = "M" ∧
        ((({ Unit := "", Value := ⟨0, 0⟩ } : Alt Decimal).Unit ≠ "M") →
          (Alt.UnmarshalXML sampleParseFloatPair { Unit := "", Value := ⟨0, 0⟩ }
            [⟨"", "UNIT", "FL"⟩, ⟨"ns", "UNIT", "M"⟩] (Except.ok "high")).1 ≠
            { Unit := "", Value := ⟨0, 0⟩ })) :=
  ⟨by decide, by decide,
    Alt_unit_written_on_failure sampleParseFloatPair { Unit := "", Value := ⟨0, 0⟩ }
      [⟨"", "UNIT", "FL"⟩, ⟨"ns", "UNIT", "M"⟩] "high" "M" ⟨0, 0⟩
      ⟨"ParseFloat", "high", "invalid syntax"⟩ (by decide) (by decide)⟩

/-! ## AltLimit -/

/-- C14: for an altitude-limit element with REFERENCE attribute r and one
nested ALT element, the decode leaves the AltLimit with Reference = r and
Value = the Alt the altitude decoder leaves for the nested element, and
returns the error of the altitude decoder: nil when it succeeds, the same
error when it fails. -/
theorem AltLimit_decode_delegates {F X : Type} (ParseFloat : String → F × Option X)
    (l : AltLimit F) (attrs altAttrs : List Attr) (altElement : Except X String) (r : String)
    (hr : attrValue "REFERENCE" attrs = some r) :
    AltLimit.decode ParseFloat l attrs altAttrs altElement =
      ({ Reference := r,
         Value := (Alt.UnmarshalXML ParseFloat l.Value altAttrs altElement).1 },
        (Alt.UnmarshalXML ParseFloat l.Value altAttrs altElement).2) := by
  simp only [AltLimit.decode, AltLimit_reference_foldl, hr]
  rfl

theorem AltLimit_decode_delegates_witness :
    attrValue "REFERENCE" [⟨"", "REFERENCE", "STD"⟩] = some "STD" ∧
      Alt.UnmarshalXML sampleParseFloatPair { Unit := "", Value := ⟨0, 0⟩ }
          [⟨"", "UNIT", "FL"⟩] (Except.ok "100") =
        ({ Unit := "FL", Value := ⟨100, 0⟩ }, none) ∧
      AltLimit.decode sampleParseFloatPair
          { Reference := "", Value := { Unit := "", Value := ⟨0, 0⟩ } }
          [⟨"", "REFERENCE", "STD"⟩] [⟨"", "UNIT", "FL"⟩] (Except.ok "100") =
        ({ Reference := "STD",
           Value := (Alt.UnmarshalXML sampleParseFloatPair { Unit := "", Value := ⟨0, 0⟩ }
             [⟨"", "UNIT", "FL"⟩] (Except.ok "100")).1 },
          (Alt.UnmarshalXML sampleParseFloatPair { Unit := "", Value := ⟨0, 0⟩ }
            [⟨"", "UNIT", "FL"⟩] (Except.ok "100")).2) :=
  ⟨by decide, by decide,
    AltLimit_decode_delegates sampleParseFloatPair
      { Reference := "", Value := { Unit := "", Value := ⟨0, 0⟩ } }
      [⟨"", "REFERENCE", "STD"⟩] [⟨"", "UNIT", "FL"⟩] (Except.ok "100") "STD" (by decide)⟩

/-! ## Polygon.UnmarshalXML: accumulation, failure, order, white space -/

theorem parseCoords_ok_fields {F X : Type} (ParseFloat : String → Except X F)
    (css1 css2 : List String) (coords : List (List F))
    (h : css1.map Fields = css2.map Fields)
    (h1 : parseCoords ParseFloat css1 = Except.ok coords) :
    parseCoords ParseFloat css2 = Except.ok coords := by
  induction css1 generalizing css2 coords with
  | nil =>
    cases css2 with
    | nil => exact h1
    | cons _ _ => simp at h
  | cons cs css ih =>
    cases css2 with
    | nil => simp at h
    | cons ds dss =>
      simp only [List.map_cons, List.cons.injEq] at h
      obtain ⟨hhead, htail⟩ := h
      cases ((parseCoords_ok_iff ParseFloat _ _).mp h1) with
      | @cons _ c _ rest hc hrest =>
        obtain ⟨f0, f1, lon, lat, hf, h0, h1f, hcc⟩ := hc
        have hd : TokenCoord ParseFloat ds c := ⟨f0, f1, lon, lat, hhead ▸ hf, h0, h1f, hcc⟩
        have hrest2 := ih dss rest htail ((parseCoords_ok_iff ParseFloat _ _).mpr hrest)
        exact (parseCoords_ok_iff ParseFloat _ _).mpr
          (List.Forall₂.cons hd ((parseCoords_ok_iff ParseFloat _ _).mp hrest2))

/-- C11: when a text decodes into an empty Polygon as D, decoding it into a
Polygon that holds the coordinates C succeeds and leaves C followed by D. -/
theorem Polygon_accumulates {F X : Type} (ParseFloat : String → Except X F)
    (p D : Polygon F) (de : Except X String)
    (h : Polygon.UnmarshalXML ParseFloat { Coords := [] } de = (D, none)) :
    Polygon.UnmarshalXML ParseFloat p de = ({ Coords := p.Coords ++ D.Coords }, none) := by
  obtain ⟨value, coords, rfl, hn, hpc, rfl⟩ := Polygon_UnmarshalXML_ok ParseFloat _ _ _ h
  rw [Polygon_UnmarshalXML_text, if_neg (by omega), hpc]
  rfl

theorem Polygon_accumulates_witness :
    Polygon.UnmarshalXML sampleParseFloat { Coords := [] } (Except.ok "1 2, 3 4, 5 6") =
        ({ Coords := [[⟨1, 0⟩, ⟨2, 0⟩], [⟨3, 0⟩, ⟨4, 0⟩], [⟨5, 0⟩, ⟨6, 0⟩]] }, none) ∧
      Polygon.UnmarshalXML sampleParseFloat { Coords := [[⟨7, 0⟩, ⟨8, 0⟩], [⟨9, 0⟩, ⟨0, 0⟩]] }
          (Except.ok "1 2, 3 4, 5 6") =
        ({ Coords := ({ Coords := [[⟨7, 0⟩, ⟨8, 0⟩], [⟨9, 0⟩, ⟨0, 0⟩]] } : Polygon Decimal).Coords ++
            ({ Coords := [[⟨1, 0⟩, ⟨2, 0⟩], [⟨3, 0⟩, ⟨4, 0⟩], [⟨5, 0⟩, ⟨6, 0⟩]] } :
              Polygon Decimal).Coords }, none) :=
  ⟨by decide,
    Polygon_accumulates sampleParseFloat { Coords := [[⟨7, 0⟩, ⟨8, 0⟩], [⟨9, 0⟩, ⟨0, 0⟩]] }
      { Coords := [[⟨1, 0⟩, ⟨2, 0⟩], [⟨3, 0⟩, ⟨4, 0⟩], [⟨5, 0⟩, ⟨6, 0⟩]] }
      (Except.ok "1 2, 3 4, 5 6") (by decide)⟩

/-- C16: when a polygon decode returns an error, whichever it is (the text
could not be read, too few tokens, a token without exactly 2 fields, a field
that is not a number, at any position), the Polygon holds exactly the
coordinates it held before. -/
theorem Polygon_unchanged_on_failure {F X : Type} (ParseFloat : String → Except X F)
    (p p2 : Polygon F) (de : Except X String) (err : Err X)
    (h : Polygon.UnmarshalXML ParseFloat p de = (p2, some err)) : p2 = p := by
  cases de with
  | error e =>
    simp only [Polygon.UnmarshalXML, Prod.mk.injEq] at h
    exact h.1.symm
  | ok value =>
    rw [Polygon_UnmarshalXML_text] at h
    by_cases hlen : (Split value ',').length < 3
    · rw [if_pos hlen] at h
      exact (Prod.mk.inj h).1.symm
    · rw [if_neg hlen] at h
      cases hr : parseCoords ParseFloat (Split value ',') with
      | error e =>
        rw [hr] at h
        exact (Prod.mk.inj h).1.symm
      | ok coords =>
        rw [hr] at h
        cases (Prod.mk.inj h).2

theorem Polygon_unchanged_on_failure_witness :
    Polygon.UnmarshalXML sampleParseFloat { Coords := [[⟨7, 0⟩, ⟨8, 0⟩]] }
        (Except.ok "1 2, 3 4, 5 x") =
        ({ Coords := [[⟨7, 0⟩, ⟨8, 0⟩]] },
          some (Err.lib ⟨"ParseFloat", "x", "invalid syntax"⟩)) ∧
      ({ Coords := [[⟨7, 0⟩, ⟨8, 0⟩]] } : Polygon Decimal) = { Coords := [[⟨7, 0⟩, ⟨8, 0⟩]] } :=
  ⟨by decide,
    Polygon_unchanged_on_failure sampleParseFloat { Coords := [[⟨7, 0⟩, ⟨8, 0⟩]] }
      { Coords := [[⟨7, 0⟩, ⟨8, 0⟩]] } (Except.ok "1 2, 3 4, 5 x")
      (Err.lib ⟨"ParseFloat", "x", "invalid syntax"⟩) (by decide)⟩

/-- C17: a text with fewer than 3 tokens fails with the count error whatever
its tokens are; with 3 or more tokens, when every token before the token cs
has exactly 2 fields that both parse, whatever the tokens after cs are: if cs
has not exactly 2 fields the error is the field-count error of cs (whether or
not its fields are numbers); if it has 2 fields and the first does not parse
the error is the parser's error for the first (whether or not the second
parses); if the first parses and the second does not, the error is the
parser's error for the second. -/
theorem Polygon_validation_order {F X : Type} (ParseFloat : String → Except X F)
    (p : Polygon F) (value : String) :
    ((Split value ',').length < 3 →
      Polygon.UnmarshalXML ParseFloat p (Except.ok value) =
        (p, some (Err.errorf "expected at least 3 coordinates, got %d: %#v"
          [Arg.int (Split value ',').length, Arg.strs (Split value ',')]))) ∧
    ∀ (pre post : List String) (cs : String), 3 ≤ (Split value ',').length →
      Split value ',' = pre ++ cs :: post →
      (∀ t ∈ pre, ∃ c, TokenCoord ParseFloat t c) →
      ((Fields cs).length ≠ 2 →
        Polygon.UnmarshalXML ParseFloat p (Except.ok value) =
          (p, some (Err.errorf "expected two values, got %d: %v"
            [Arg.int (Fields cs).length, Arg.str cs]))) ∧
      (∀ (f0 f1 : String) (e : X), Fields cs = [f0, f1] → ParseFloat f0 = Except.error e →
        Polygon.UnmarshalXML ParseFloat p (Except.ok value) = (p, some (Err.lib e))) ∧
      (∀ (f0 f1 : String) (lon : F) (e : X), Fields cs = [f0, f1] →
        ParseFloat f0 = Except.ok lon → ParseFloat f1 = Except.error e →
        Polygon.UnmarshalXML ParseFloat p (Except.ok value) = (p, some (Err.lib e))) := by
  constructor
  · intro hlt
    rw [Polygon_UnmarshalXML_text, if_pos hlt]
  · intro pre post cs hn hsplit hpre
    have key : ∀ err, parseCoords ParseFloat (cs :: post) = Except.error err →
        Polygon.UnmarshalXML ParseFloat p (Except.ok value) = (p, some err) := by
      intro err herr
      apply Polygon_UnmarshalXML_error ParseFloat p value err hn
      rw [hsplit]
      exact parseCoords_first_bad ParseFloat pre post cs err hpre herr
    refine ⟨fun hcount => ?_, fun f0 f1 e hf h0 => ?_, fun f0 f1 lon e hf h0 h1 => ?_⟩
    · exact key _ (parseCoords_cons_count ParseFloat cs post hcount)
    · exact key _ (parseCoords_cons_lon ParseFloat cs post f0 f1 e hf h0)
    · exact key _ (parseCoords_cons_lat ParseFloat cs post f0 f1 lon e hf h0 h1)

/-- C18: when two texts have the same number of tokens and corresponding
tokens have the same list of fields, one decodes without error exactly when
the other does, and the Polygon they leave is the same (on success the same
coordinates appended, on failure the Polygon as it was). -/
theorem Polygon_depends_on_fields {F X : Type} (ParseFloat : String → Except X F)
    (p : Polygon F) (v1 v2 : String)
    (h : (Split v1 ',').map Fields = (Split v2 ',').map Fields) :
    ((Polygon.UnmarshalXML ParseFloat p (Except.ok v1)).2 = none ↔
        (Polygon.UnmarshalXML ParseFloat p (Except.ok v2)).2 = none) ∧
      (Polygon.UnmarshalXML ParseFloat p (Except.ok v1)).1 =
        (Polygon.UnmarshalXML ParseFloat p (Except.ok v2)).1 := by
  have hlen : (Split v1 ',').length = (Split v2 ',').length := by
    have := congrArg List.length h
    simpa using this
  rw [Polygon_UnmarshalXML_text, Polygon_UnmarshalXML_text]
  by_cases hlt : (Split v1 ',').length < 3
  · rw [if_pos hlt, if_pos (hlen ▸ hlt)]
    simp
  · rw [if_neg hlt, if_neg (hlen ▸ hlt)]
    cases h1 : parseCoords ParseFloat (Split v1 ',') with
    | ok coords =>
      rw [parseCoords_ok_fields ParseFloat _ _ coords h h1]
      simp
    | error e1 =>
      cases h2 : parseCoords ParseFloat (Split v2 ',') with
      | ok coords =>
        rw [parseCoords_ok_fields ParseFloat _ _ coords h.symm h2] at h1
        cases h1
      | error e2 => simp

theorem Polygon_depends_on_fields_witness :
    (Split "1 2, 3 4, 5 6" ',').map Fields =
        (Split " 1\t2 ,3   4,\n5 6\n" ',').map Fields ∧
      (((Polygon.UnmarshalXML sampleParseFloat { Coords := [] }
            (Except.ok "1 2, 3 4, 5 6")).2 = none ↔
          (Polygon.UnmarshalXML sampleParseFloat { Coords := [] }
            (Except.ok " 1\t2 ,3   4,\n5 6\n")).2 = none) ∧
        (Polygon.UnmarshalXML sampleParseFloat { Coords := [] }
            (Except.ok "1 2, 3 4, 5 6")).1 =
          (Polygon.UnmarshalXML sampleParseFloat { Coords := [] }
            (Except.ok " 1\t2 ,3   4,\n5 6\n")).1) :=
  ⟨by decide,
    Polygon_depends_on_fields sampleParseFloat { Coords := [] } "1 2, 3 4, 5 6"
      " 1\t2 ,3   4,\n5 6\n" (by decide)⟩

end Openaip
